import Mathlib

/-!
Shallow embedding of the lex-hook library (src/src/index.ts) in Lean 4.

Modelling conventions
- TypeScript `string | null` values (and `undefined` lookups) become `Option String`:
  the source only distinguishes them through `!= null` and truthiness, which treat
  `null` and `undefined` alike.
- String-keyed object maps become functions `String → Option α`; assignment becomes
  pointwise update.
- Fallible TypeScript code (thrown exceptions, rejected promises) becomes
  `Except String _`.
- The JavaScript `Date` used by `Util.isValidLexDate` is modelled under a runtime
  whose local timezone is UTC (the AWS Lambda default): the time value of
  `YYYY-MM-DDT00:00:00` is then `daysFromEpoch * 86400000`, which is zero exactly
  for the civil date 1970-01-01, so `Boolean(+date)` is `false` exactly for an
  unparseable string (NaN) or for the epoch date. Because the source appends the
  time part, only the strict padded ISO date form (four-digit year, two-digit
  month, two-digit day) parses: V8's legacy fallback parser rejects the trailing
  "T", so unpadded forms like "2020-7-6" are an Invalid Date; the expanded-year
  form (a sign and six year digits) is not modelled, and the date claim's general
  statement is confined to the padded shape.
- `DefaultDialogEventHandler.handle` mutates the Lex event in place and lazily
  caches fallback evaluators; the embedding threads that state explicitly and also
  records, as instrumentation, the ordered list of slot names whose evaluator was
  invoked during the call.
-/

set_option maxHeartbeats 1000000

/-- Content type of a Lex response message (src/src/index.ts, `ResponseMessage`). -/
inductive ContentType where
  | plainText
  | ssml
  | customPayload
deriving DecidableEq

/-- A response message as sent back to Lex. -/
structure ResponseMessage where
  contentType : ContentType
  content : String
deriving DecidableEq

/-- Confirmation status of an intent. -/
inductive ConfirmationStatus where
  | csNone
  | csConfirmed
  | csDenied
deriving DecidableEq

/-- Dialog action type recorded in an intent summary. -/
inductive SummaryDialogActionType where
  | elicitIntent
  | elicitSlot
  | confirmIntent
  | delegate
  | close
deriving DecidableEq

/-- Fulfillment state of a Close action or an intent summary. -/
inductive FulfillmentState where
  | Fulfilled
  | Failed
deriving DecidableEq

/-- One resolution of a slot value (aws-lambda `LexSlotResolution`). -/
structure LexSlotResolution where
  value : String
deriving DecidableEq

/-- One entry of `currentIntent.slotDetails`: resolutions plus the original utterance. -/
structure SlotDetail where
  resolutions : List LexSlotResolution
  originalValue : Option String
deriving DecidableEq

/-- IntentSummary (src/src/index.ts lines 95-103): a snapshot of a prior turn. -/
structure IntentSummary where
  intentName : String
  checkpointLabel : String
  slots : String → Option String
  confirmationStatus : ConfirmationStatus
  dialogActionType : SummaryDialogActionType
  fulfillmentState : FulfillmentState
  slotToElicit : String

/-- The `currentIntent` part of a Lex event. -/
structure CurrentIntent where
  name : String
  slots : String → Option String
  slotDetails : String → Option SlotDetail
  confirmationStatus : ConfirmationStatus

/-- Session attributes: a free-form string map, kept as an association list so that
a present-but-empty map (truthy in JavaScript) stays distinct from an absent one. -/
abbrev SessionAttributes := List (String × String)

/-- Ext.LexEvent (src/src/index.ts lines 63-89), restricted to the fields the
library reads. `recentIntentSummaryView` is an `Option` because the source
guards it with a truthiness check before iterating. -/
structure LexEvent where
  currentIntent : CurrentIntent
  invocationSource : String
  sessionAttributes : Option SessionAttributes
  recentIntentSummaryView : Option (List IntentSummary)

/-- The dialog action carried by a LexResult: Close, Delegate or ElicitSlot. -/
inductive LexDialogAction where
  | close (fulfillmentState : FulfillmentState) (message : Option ResponseMessage)
  | delegate (slots : Option (String → Option String))
  | elicitSlot (intentName : String) (slotToElicit : String)
      (slots : String → Option String) (message : Option ResponseMessage)

/-- Ext.LexResult: a dialog action plus optional session attributes and summary view. -/
structure LexResult where
  dialogAction : LexDialogAction
  sessionAttributes : Option SessionAttributes := none
  recentIntentSummaryView : Option (List IntentSummary) := none

/-- Slot name carried by an ElicitSlot action, if the action is one. -/
def dialogActionSlotToElicit : LexDialogAction → Option String
  | LexDialogAction.elicitSlot _ slotToElicit _ _ => some slotToElicit
  | _ => none

namespace LexResultFactory

/-- LexResultFactory.maybeAddToResult (src/src/index.ts lines 734-742): copies the
optional session attributes and summary view onto the result when truthy. -/
def maybeAddToResult (lexResult : LexResult) (sessionAttributes : Option SessionAttributes)
    (recentIntentSummaryView : Option (List IntentSummary)) : LexResult :=
  let lr1 := match sessionAttributes with
    | some sa => { lexResult with sessionAttributes := some sa }
    | none => lexResult
  match recentIntentSummaryView with
  | some v => { lr1 with recentIntentSummaryView := some v }
  | none => lr1

/-- LexResultFactory.dialogActionClose (src/src/index.ts lines 637-661). -/
def dialogActionClose (fulfillmentState : FulfillmentState) (message : Option ResponseMessage)
    (sessionAttributes : Option SessionAttributes)
    (recentIntentSummaryView : Option (List IntentSummary)) : LexResult :=
  maybeAddToResult { dialogAction := LexDialogAction.close fulfillmentState message }
    sessionAttributes recentIntentSummaryView

/-- LexResultFactory.dialogActionDelegate (src/src/index.ts lines 669-690). -/
def dialogActionDelegate (slots : Option (String → Option String))
    (sessionAttributes : Option SessionAttributes)
    (recentIntentSummaryView : Option (List IntentSummary)) : LexResult :=
  maybeAddToResult { dialogAction := LexDialogAction.delegate slots }
    sessionAttributes recentIntentSummaryView

/-- LexResultFactory.dialogActionElicitSlot (src/src/index.ts lines 698-726). -/
def dialogActionElicitSlot (intentName : String) (slotToElicit : String)
    (slots : String → Option String) (message : Option ResponseMessage)
    (sessionAttributes : Option SessionAttributes)
    (recentIntentSummaryView : Option (List IntentSummary)) : LexResult :=
  maybeAddToResult { dialogAction := LexDialogAction.elicitSlot intentName slotToElicit slots message }
    sessionAttributes recentIntentSummaryView

end LexResultFactory

/-- EventHandler (src/src/index.ts lines 133-135): `handle` may fail (a rejected
promise or thrown exception becomes `Except.error`). -/
structure EventHandler where
  handle : LexEvent → Except String LexResult

/-- LexEventHandler (src/src/index.ts lines 124-127). -/
structure LexEventHandler where
  dialog : EventHandler
  fulfill : EventHandler

/-- The route entry point (src/src/index.ts lines 25-57): dispatch on the
invocation source, translating any failure (including an unrecognized source)
into a Close/Failed result that carries the inbound session attributes. The
function is total: no exception is re-raised. -/
def route (lexEvent : LexEvent) (eventHandler : LexEventHandler) : LexResult :=
  let tried : Except String LexResult :=
    if lexEvent.invocationSource = "DialogCodeHook" then
      eventHandler.dialog.handle lexEvent
    else if lexEvent.invocationSource = "FulfillmentCodeHook" then
      eventHandler.fulfill.handle lexEvent
    else
      Except.error "malformed Lex Event"
  match tried with
  | Except.ok r => r
  | Except.error _ =>
      LexResultFactory.dialogActionClose FulfillmentState.Failed
        (some { contentType := ContentType.plainText, content := "Unxpected error occurred" })
        lexEvent.sessionAttributes none

/-- SlotValidationAssessment (src/src/index.ts lines 210-214). -/
inductive SlotValidationAssessment where
  | INVALID
  | VALID_SLOT
  | VALID_RECENT_SLOT
deriving DecidableEq

/-- EvaluatableSlotValue (src/src/index.ts lines 220-225). `details` is optional
because the slot-details lookup can miss at runtime. -/
structure EvaluatableSlotValue where
  value : Option String
  recentValue : Option String
  details : Option SlotDetail
  elicitedSlotName : Option String
deriving DecidableEq

/-- SlotEvaluationResult (src/src/index.ts lines 231-246). -/
structure SlotEvaluationResult where
  valid : SlotValidationAssessment
  slotValue : EvaluatableSlotValue
  newSlots : Option (List (String × String)) := none

/-- SlotEvaluator (src/src/index.ts lines 183-202). -/
structure SlotEvaluator where
  promptMessage : String
  slotName : String
  evaluate : LexEvent → SlotEvaluationResult
  isValid : EvaluatableSlotValue → SlotValidationAssessment

/-- JavaScript truthiness of a possibly-absent string: `null`, `undefined` and the
empty string are falsy; every other string is truthy. -/
def jsTruthyString (v : Option String) : Bool :=
  match v with
  | none => false
  | some s => !s.data.isEmpty

/-- JavaScript string coercion of a possibly-absent string (as performed by
`RegExp.test`): `null` coerces to the four-character string "null". -/
def jsStringOfOpt (v : Option String) : String :=
  match v with
  | some s => s
  | none => "null"

namespace Util

/-- Gregorian leap-year test, as performed by the JavaScript Date object. -/
def isLeapYear (y : Nat) : Bool :=
  y % 4 == 0 && (y % 100 != 0 || y % 400 == 0)

/-- Days in a month of the proleptic Gregorian calendar. -/
def daysInMonth (y m : Nat) : Nat :=
  if m == 2 then (if isLeapYear y then 29 else 28)
  else if m == 4 || m == 6 || m == 9 || m == 11 then 30
  else 31

/-- A civil calendar date. -/
structure CivilDate where
  year : Nat
  month : Nat
  day : Nat
deriving DecidableEq

/-- Day-overflow normalization performed by the JavaScript Date constructor: a day
number past the end of its month rolls over into the following month (a single
step suffices because the parser admits day numbers of at most 31). -/
def normalizeCivilDate (y m d : Nat) : CivilDate :=
  let dim := daysInMonth y m
  if d ≤ dim then { year := y, month := m, day := d }
  else if m == 12 then { year := y + 1, month := 1, day := d - dim }
  else { year := y, month := m + 1, day := d - dim }

/-- Numeric value of a string of decimal digits (JavaScript unary plus on an
all-digit string; the empty string yields 0). -/
def digitsToNat (l : List Char) : Nat :=
  l.foldl (fun acc c => acc * 10 + (c.toNat - 48)) 0

/-- Split a character list at every dash, keeping empty fields. -/
def splitFields : List Char → List (List Char)
  | [] => [[]]
  | c :: rest =>
    let r := splitFields rest
    if c = '-' then [] :: r
    else
      match r with
      | f :: fs => (c :: f) :: fs
      | [] => [[c]]

/-- A nonempty all-digit field. -/
def allDigits (l : List Char) : Bool :=
  !l.isEmpty && l.all Char.isDigit

/-- Model of `new Date(dateString + "T00:00:00")` as evaluated by V8. Because a
time part is appended, only the strict ISO date form can parse: a four-digit
year, a two-digit month in 01..12 and a two-digit day in 01..31, dash-separated
(the legacy fallback parser rejects the trailing "T", so unpadded forms such as
"2020-7-6" are an Invalid Date). The resulting instant is the normalized civil
date: a day past the end of its month rolls into the next month. `none` models
an Invalid Date. The ES5 expanded-year form (a sign and six year digits) is not
modelled and is treated as not parsing; the claims are stated away from it. -/
def jsDateParse (dateString : String) : Option CivilDate :=
  match splitFields dateString.data with
  | [ys, ms, ds] =>
    if ys.length == 4 && allDigits ys && ms.length == 2 && allDigits ms &&
        ds.length == 2 && allDigits ds then
      let m := digitsToNat ms
      let d := digitsToNat ds
      if 1 ≤ m && m ≤ 12 && 1 ≤ d && d ≤ 31 then
        some (normalizeCivilDate (digitsToNat ys) m d)
      else none
    else none
  | _ => none

/-- Characters after the last dash of the string (`dateString.substring(posn + 1)`
with `posn = dateString.lastIndexOf(char)` for the dash). -/
def afterLastDash (dateString : String) : List Char :=
  (splitFields dateString.data).getLastD []

/-- Util.isValidLexDate (src/src/index.ts lines 604-625). A falsy argument or one
without a dash is rejected; otherwise the string (with "T00:00:00" appended) is
given to the Date constructor, and the value is valid when `Boolean(+date)` holds
and `date.getDate()` equals the number formed by the digits after the last dash.
Under a UTC runtime `Boolean(+date)` is false exactly when the date is invalid
(NaN) or its time value is zero, that is, the civil date is 1970-01-01. -/
def isValidLexDate (dateString : Option String) : Bool :=
  match dateString with
  | none => false
  | some s =>
    if s.data.isEmpty then false
    else if !(s.data.contains '-') then false
    else
      match jsDateParse s with
      | none => false
      | some date =>
        if date = { year := 1970, month := 1, day := 1 } then false
        else date.day == digitsToNat (afterLastDash s)

end Util

/-- The test of the regular expression `^[1-9]?[0-9]*[.][0-9]{2}` on a character
list (src/src/index.ts line 594): anchored at the start only, it succeeds when
some run of leading digits is followed by a literal point and two digits, with
anything allowed afterwards. -/
def currencyRegexTest : List Char → Bool
  | [] => false
  | c :: rest =>
    if c.isDigit then currencyRegexTest rest
    else if c = '.' then
      match rest with
      | d1 :: d2 :: _ => d1.isDigit && d2.isDigit
      | _ => false
    else false

namespace StandardSlotEvaluators

/-- BaseSlotEvaluator.getRecentIntentSummary (src/src/index.ts lines 486-500):
the first summary, in list order, whose intent name equals the current intent
name; `none` when the view is absent or no summary matches. -/
def getRecentIntentSummary (lexEvent : LexEvent) : Option IntentSummary :=
  match lexEvent.recentIntentSummaryView with
  | none => none
  | some view => view.find? (fun s => s.intentName == lexEvent.currentIntent.name)

/-- BaseSlotEvaluator.getSlotValue (src/src/index.ts lines 467-478). -/
def getSlotValue (slotName : String) (lexEvent : LexEvent) : EvaluatableSlotValue :=
  let recentIntentSummary := getRecentIntentSummary lexEvent
  { value := lexEvent.currentIntent.slots slotName
    details := lexEvent.currentIntent.slotDetails slotName
    recentValue := match recentIntentSummary with
      | some s => s.slots slotName
      | none => none
    elicitedSlotName := match recentIntentSummary with
      | some s => some s.slotToElicit
      | none => none }

/-- BaseSlotEvaluator.isValid (src/src/index.ts lines 450-459): VALID_RECENT_SLOT
when the recent-summary value is non-null, INVALID otherwise. -/
def baseIsValid (slotValue : EvaluatableSlotValue) : SlotValidationAssessment :=
  if slotValue.recentValue.isSome then SlotValidationAssessment.VALID_RECENT_SLOT
  else SlotValidationAssessment.INVALID

/-- Builds a concrete evaluator from its `isValid` override: `evaluate` is the
inherited BaseSlotEvaluator.evaluate (src/src/index.ts lines 436-440), which
extracts the slot value, applies (the dynamically dispatched) `isValid` and wraps
both, with no replacement slots. -/
def mkEvaluator (slotName promptMessage : String)
    (isValidFn : EvaluatableSlotValue → SlotValidationAssessment) : SlotEvaluator :=
  { slotName := slotName
    promptMessage := promptMessage
    isValid := isValidFn
    evaluate := fun lexEvent =>
      let slotValue := getSlotValue slotName lexEvent
      { valid := isValidFn slotValue, slotValue := slotValue } }

/-- NotNullSlotEvaluator.isValid (src/src/index.ts lines 516-522): on the base
INVALID branch, VALID_SLOT when the current value is truthy. -/
def notNullIsValid (slotValue : EvaluatableSlotValue) : SlotValidationAssessment :=
  let sva := baseIsValid slotValue
  if sva = SlotValidationAssessment.INVALID then
    if jsTruthyString slotValue.value then SlotValidationAssessment.VALID_SLOT
    else SlotValidationAssessment.INVALID
  else sva

/-- NotNullSlotEvaluator (src/src/index.ts lines 508-524). -/
def NotNullSlotEvaluator (slotName promptMessage : String) : SlotEvaluator :=
  mkEvaluator slotName promptMessage notNullIsValid

/-- SetMembershipSlotEvaluator.isValid (src/src/index.ts lines 545-551): on the
base INVALID branch, VALID_SLOT when the current value is a member of the fixed
set (a null value is in no set of strings). -/
def setMembershipIsValid (memberSet : List String)
    (slotValue : EvaluatableSlotValue) : SlotValidationAssessment :=
  let sva := baseIsValid slotValue
  if sva = SlotValidationAssessment.INVALID then
    match slotValue.value with
    | some v =>
      if memberSet.contains v then SlotValidationAssessment.VALID_SLOT
      else SlotValidationAssessment.INVALID
    | none => SlotValidationAssessment.INVALID
  else sva

/-- SetMembershipSlotEvaluator (src/src/index.ts lines 532-553). -/
def SetMembershipSlotEvaluator (slotName promptMessage : String)
    (memberSet : List String) : SlotEvaluator :=
  mkEvaluator slotName promptMessage (setMembershipIsValid memberSet)

/-- LexDateSlotEvaluator.isValid (src/src/index.ts lines 566-574): on the base
INVALID branch, VALID_SLOT when Util.isValidLexDate accepts the current value. -/
def lexDateIsValid (slotValue : EvaluatableSlotValue) : SlotValidationAssessment :=
  let sva := baseIsValid slotValue
  if sva = SlotValidationAssessment.INVALID then
    if Util.isValidLexDate slotValue.value then SlotValidationAssessment.VALID_SLOT
    else SlotValidationAssessment.INVALID
  else sva

/-- LexDateSlotEvaluator (src/src/index.ts lines 560-576). -/
def LexDateSlotEvaluator (slotName promptMessage : String) : SlotEvaluator :=
  mkEvaluator slotName promptMessage lexDateIsValid

/-- CurrencySlotEvaluator.isValid (src/src/index.ts lines 591-598): on the base
INVALID branch, VALID_SLOT when the regular expression `^[1-9]?[0-9]*[.][0-9]{2}`
matches somewhere at the start of the (string-coerced) current value. -/
def currencyIsValid (slotValue : EvaluatableSlotValue) : SlotValidationAssessment :=
  let sva := baseIsValid slotValue
  if sva = SlotValidationAssessment.INVALID then
    if currencyRegexTest (jsStringOfOpt slotValue.value).data then
      SlotValidationAssessment.VALID_SLOT
    else SlotValidationAssessment.INVALID
  else sva

/-- CurrencySlotEvaluator (src/src/index.ts lines 583-599). -/
def CurrencySlotEvaluator (slotName promptMessage : String) : SlotEvaluator :=
  mkEvaluator slotName promptMessage currencyIsValid

end StandardSlotEvaluators

/-- DialogEventHandlerConfig (src/src/index.ts lines 147-177). The two hooks
return no value the engine consumes; per the ownership model (the engine is the
sole writer of the turn) they are modelled as pure observers. -/
structure DialogEventHandlerConfig where
  slotEvaluatorArray : List SlotEvaluator
  slotEvaluationHook : Option (LexEvent → SlotEvaluator → SlotEvaluationResult → Unit) := none
  allSlotsValidHook : Option (LexEvent → Unit) := none
  invalidSlotResponder : Option (LexEvent → SlotEvaluator → SlotEvaluationResult → LexResult) := none
  allSlotsValidResponder : Option (LexEvent → LexResult) := none

/-- Pointwise update of a string-keyed map (JavaScript object assignment). -/
def mapInsert (m : String → Option SlotEvaluator) (k : String) (v : SlotEvaluator) :
    String → Option SlotEvaluator :=
  fun n => if n = k then some v else m n

/-- DefaultDialogEventHandler state (src/src/index.ts lines 264-326): the
slot-name→evaluator map, the elicitation-order name list, and the config. -/
structure DefaultDialogEventHandler where
  slotEvaluatorMap : String → Option SlotEvaluator
  slotNameArray : List String
  config : DialogEventHandlerConfig

/-- The constructor loop (src/src/index.ts lines 322-325): each evaluator is
mapped under its slot name (overwriting an earlier one) and its slot name is
appended to the order list. -/
def buildEvaluatorState : List SlotEvaluator →
    (String → Option SlotEvaluator) × List String →
    (String → Option SlotEvaluator) × List String
  | [], acc => acc
  | se :: rest, (m, names) =>
    buildEvaluatorState rest (mapInsert m se.slotName se, names ++ [se.slotName])

/-- DefaultDialogEventHandler constructor (src/src/index.ts lines 310-326). -/
def mkDefaultDialogEventHandler (config : DialogEventHandlerConfig) : DefaultDialogEventHandler :=
  let st := buildEvaluatorState config.slotEvaluatorArray (fun _ => none, [])
  { slotEvaluatorMap := st.1, slotNameArray := st.2, config := config }

/-- DefaultDialogEventHandler.defaultInvalidSlotResponder (src/src/index.ts lines
287-296): ElicitSlot for the failing evaluator's slot, carrying the (already
mutated) slot map and the evaluator's prompt. -/
def defaultInvalidSlotResponder (lexEvent : LexEvent) (slotEvaluator : SlotEvaluator)
    (_slotEvalResult : SlotEvaluationResult) : LexResult :=
  LexResultFactory.dialogActionElicitSlot lexEvent.currentIntent.name slotEvaluator.slotName
    lexEvent.currentIntent.slots
    (some { contentType := ContentType.plainText, content := slotEvaluator.promptMessage })
    lexEvent.sessionAttributes none

/-- DefaultDialogEventHandler.defaultAllSlotsValidResponder (src/src/index.ts
lines 303-308): Delegate with the current slot map. -/
def defaultAllSlotsValidResponder (lexEvent : LexEvent) : LexResult :=
  LexResultFactory.dialogActionDelegate (some lexEvent.currentIntent.slots)
    lexEvent.sessionAttributes none

/-- DefaultDialogEventHandler.getSlotEvaluator (src/src/index.ts lines 380-395):
look the evaluator up; on a miss substitute a NotNullSlotEvaluator and cache it
in the map (the returned map is the possibly-extended one). -/
def getSlotEvaluator (m : String → Option SlotEvaluator) (slotName : String) :
    SlotEvaluator × (String → Option SlotEvaluator) :=
  match m slotName with
  | some slotEvaluator => (slotEvaluator, m)
  | none =>
    let slotEvaluator := StandardSlotEvaluators.NotNullSlotEvaluator slotName "null value is invalid"
    (slotEvaluator, mapInsert m slotName slotEvaluator)

/-- The mutable state threaded through one `handle` call: the (possibly mutated)
Lex event, the (possibly extended) evaluator map, and — as instrumentation — the
slot names whose evaluator has been invoked, in order. -/
structure HandleState where
  lexEvent : LexEvent
  evalMap : String → Option SlotEvaluator
  invoked : List String

/-- The slot-clearing mutation `lexEvent.currentIntent.slots[slotName] = null`
(src/src/index.ts line 352). -/
def clearSlot (lexEvent : LexEvent) (slotName : String) : LexEvent :=
  { lexEvent with currentIntent := { lexEvent.currentIntent with
      slots := fun n => if n = slotName then none else lexEvent.currentIntent.slots n } }

/-- The slot loop of DefaultDialogEventHandler.handle (src/src/index.ts lines
339-358): walk the slot names in order, evaluate each, run the per-evaluation
hook, and on the first INVALID assessment clear the slot and return the rejection
response (custom responder if configured, else the default ElicitSlot). `none`
as first component means the loop ran to completion. -/
def handleLoop (config : DialogEventHandlerConfig) :
    List String → HandleState → Option LexResult × HandleState
  | [], st => (none, st)
  | slotName :: rest, st =>
    let got := getSlotEvaluator st.evalMap slotName
    let slotEvaluator := got.1
    let se := slotEvaluator.evaluate st.lexEvent
    let _hook : Unit := match config.slotEvaluationHook with
      | some f => f st.lexEvent slotEvaluator se
      | none => ()
    let st1 : HandleState := { st with evalMap := got.2, invoked := st.invoked ++ [slotName] }
    if se.valid = SlotValidationAssessment.INVALID then
      let cleared := clearSlot st.lexEvent slotName
      let st2 : HandleState := { st1 with lexEvent := cleared }
      let result := match config.invalidSlotResponder with
        | some f => f cleared slotEvaluator se
        | none => defaultInvalidSlotResponder cleared slotEvaluator se
      (some result, st2)
    else
      handleLoop config rest st1

/-- DefaultDialogEventHandler.handle (src/src/index.ts lines 336-372). Returns
the LexResult together with the final state (the TypeScript method mutates the
event in place; the embedding returns the post-state explicitly). -/
def DefaultDialogEventHandler.handle (h : DefaultDialogEventHandler) (lexEvent : LexEvent) :
    LexResult × HandleState :=
  let looped := handleLoop h.config h.slotNameArray
    { lexEvent := lexEvent, evalMap := h.slotEvaluatorMap, invoked := [] }
  match looped with
  | (some result, st) => (result, st)
  | (none, st) =>
    let _hook : Unit := match h.config.allSlotsValidHook with
      | some f => f st.lexEvent
      | none => ()
    match h.config.allSlotsValidResponder with
    | some f => (f st.lexEvent, st)
    | none => (defaultAllSlotsValidResponder st.lexEvent, st)

/-- The assessment a handler's registered evaluator for a slot gives the inbound
event, when the slot has a registered evaluator at all. -/
def handlerAssess (h : DefaultDialogEventHandler) (lexEvent : LexEvent) (n : String) :
    Option SlotValidationAssessment :=
  (h.slotEvaluatorMap n).map fun ev => (ev.evaluate lexEvent).valid

/-- Modelled from the spec's words for the currency claim: the value has a prefix
consisting of a run of digits (the spec's "optional leading digit 1-9, zero or
more digits" denotes the same language), a literal decimal point and exactly two
digits, with anything allowed afterwards (anchored at the start only). -/
def currencyClaimShape (l : List Char) : Prop :=
  ∃ (a : List Char) (d1 d2 : Char) (r : List Char),
    l = a ++ '.' :: d1 :: d2 :: r ∧ (∀ c ∈ a, c.isDigit = true) ∧
    d1.isDigit = true ∧ d2.isDigit = true

/-- Modelled from the spec's words for the date claim: the value contains a dash
separator and reconstructing a date from the string yields the same day-of-month
number as the digits after the last dash. -/
def lexDateClaimCondition (s : String) : Bool :=
  s.data.contains '-' &&
    match Util.jsDateParse s with
    | some date => date.day == Util.digitsToNat (Util.afterLastDash s)
    | none => false

/-- The strict padded date shape YYYY-MM-DD: four digits, a dash, two digits, a
dash, two digits. With "T00:00:00" appended this is the only dash-separated date
form V8 parses, so it is the domain on which the Date model is exact and over
which the general part of the date claim is stated. -/
def isPaddedLexDateShape (s : String) : Bool :=
  match s.data with
  | [y1, y2, y3, y4, '-', m1, m2, '-', d1, d2] =>
    y1.isDigit && y2.isDigit && y3.isDigit && y4.isDigit &&
    m1.isDigit && m2.isDigit && d1.isDigit && d2.isDigit
  | _ => false

/-- Fixture: a non-absence evaluator for slot A. -/
def evFixtureA : SlotEvaluator :=
  StandardSlotEvaluators.NotNullSlotEvaluator "A" "Please enter A"

/-- Fixture: a set-membership evaluator for slot B over the set of x and y. -/
def evFixtureB : SlotEvaluator :=
  StandardSlotEvaluators.SetMembershipSlotEvaluator "B" "Please enter B" ["x", "y"]

/-- Fixture: a configuration registering the evaluator for A then the one for B,
with no hooks and no custom responders. -/
def cfgFixture : DialogEventHandlerConfig :=
  { slotEvaluatorArray := [evFixtureA, evFixtureB] }

/-- Fixture: a dialog turn whose slot A holds a valid value and whose slot B holds
a value outside the membership set, with no summaries. -/
def eventFixtureInvalidB : LexEvent :=
  { currentIntent :=
      { name := "OrderFlowers"
        slots := fun n => if n = "A" then some "hi" else if n = "B" then some "z" else none
        slotDetails := fun _ => none
        confirmationStatus := ConfirmationStatus.csNone }
    invocationSource := "DialogCodeHook"
    sessionAttributes := some [("k", "v")]
    recentIntentSummaryView := none }

/-- Fixture: a dialog turn whose slots A and B both hold acceptable values. -/
def eventFixtureAllValid : LexEvent :=
  { currentIntent :=
      { name := "OrderFlowers"
        slots := fun n => if n = "A" then some "hi" else if n = "B" then some "x" else none
        slotDetails := fun _ => none
        confirmationStatus := ConfirmationStatus.csNone }
    invocationSource := "DialogCodeHook"
    sessionAttributes := some [("k", "v")]
    recentIntentSummaryView := none }

/-- Fixture: a prior-turn summary for the same intent with slot C confirmed. -/
def summaryFixture : IntentSummary :=
  { intentName := "OrderFlowers"
    checkpointLabel := "cp"
    slots := fun n => if n = "C" then some "confirmed-val" else none
    confirmationStatus := ConfirmationStatus.csConfirmed
    dialogActionType := SummaryDialogActionType.confirmIntent
    fulfillmentState := FulfillmentState.Fulfilled
    slotToElicit := "C" }

/-- Fixture: a turn carrying the summary for slot C while the current value of C is
absent. -/
def eventFixtureRecent : LexEvent :=
  { currentIntent :=
      { name := "OrderFlowers"
        slots := fun _ => none
        slotDetails := fun _ => none
        confirmationStatus := ConfirmationStatus.csNone }
    invocationSource := "DialogCodeHook"
    sessionAttributes := none
    recentIntentSummaryView := some [summaryFixture] }

/-- Fixture: an event handler pair whose both handlers fail. -/
def failingHandlerFixture : LexEventHandler :=
  { dialog := { handle := fun _ => Except.error "boom" }
    fulfill := { handle := fun _ => Except.error "boom" } }

/-! Helper lemmas about the constructor state, the factories and the loop. -/

theorem buildEvaluatorState_names (arr : List SlotEvaluator) :
    ∀ (m : String → Option SlotEvaluator) (names : List String),
    (buildEvaluatorState arr (m, names)).2 = names ++ arr.map (fun se => se.slotName) := by
  induction arr with
  | nil => intro m names; simp [buildEvaluatorState]
  | cons se rest ih => intro m names; simp [buildEvaluatorState, ih]

theorem buildEvaluatorState_isSome (arr : List SlotEvaluator) :
    ∀ (m : String → Option SlotEvaluator) (names : List String),
    (∀ n ∈ names, (m n).isSome) →
    ∀ n ∈ (buildEvaluatorState arr (m, names)).2,
      ((buildEvaluatorState arr (m, names)).1 n).isSome := by
  induction arr with
  | nil => intro m names h; simpa [buildEvaluatorState] using h
  | cons se rest ih =>
    intro m names h
    simp only [buildEvaluatorState]
    apply ih
    intro n hn
    rcases List.mem_append.1 hn with h1 | h2
    · by_cases hc : n = se.slotName
      · simp [mapInsert, hc]
      · simpa [mapInsert, hc] using h n h1
    · simp only [List.mem_singleton] at h2
      subst h2
      simp [mapInsert]

theorem buildEvaluatorState_slotName (arr : List SlotEvaluator) :
    ∀ (m : String → Option SlotEvaluator) (names : List String),
    (∀ n ev, m n = some ev → ev.slotName = n) →
    ∀ n ev, (buildEvaluatorState arr (m, names)).1 n = some ev → ev.slotName = n := by
  induction arr with
  | nil => intro m names h; simpa [buildEvaluatorState] using h
  | cons se rest ih =>
    intro m names h
    simp only [buildEvaluatorState]
    apply ih
    intro n ev hev
    simp only [mapInsert] at hev
    by_cases hc : n = se.slotName
    · rw [if_pos hc] at hev
      injection hev with hse
      rw [← hse]
      exact hc.symm
    · rw [if_neg hc] at hev
      exact h n ev hev

theorem mkHandler_lookup_isSome (config : DialogEventHandlerConfig) :
    ∀ n ∈ (mkDefaultDialogEventHandler config).slotNameArray,
      ((mkDefaultDialogEventHandler config).slotEvaluatorMap n).isSome := by
  intro n hn
  exact buildEvaluatorState_isSome config.slotEvaluatorArray (fun _ => none) []
    (by intro x hx; simp at hx) n hn

theorem mkHandler_lookup_slotName (config : DialogEventHandlerConfig) (n : String)
    (ev : SlotEvaluator)
    (h : (mkDefaultDialogEventHandler config).slotEvaluatorMap n = some ev) :
    ev.slotName = n := by
  exact buildEvaluatorState_slotName config.slotEvaluatorArray (fun _ => none) []
    (by intro x e hx; simp at hx) n ev h

theorem getSlotEvaluator_of_some {m : String → Option SlotEvaluator} {n : String}
    {ev : SlotEvaluator} (h : m n = some ev) : getSlotEvaluator m n = (ev, m) := by
  simp [getSlotEvaluator, h]

theorem maybeAddToResult_dialogAction (lr : LexResult) (sa : Option SessionAttributes)
    (risv : Option (List IntentSummary)) :
    (LexResultFactory.maybeAddToResult lr sa risv).dialogAction = lr.dialogAction := by
  cases sa <;> cases risv <;> simp [LexResultFactory.maybeAddToResult]

theorem dialogActionClose_sessionAttributes (fs : FulfillmentState)
    (msg : Option ResponseMessage) (sa : Option SessionAttributes) :
    (LexResultFactory.dialogActionClose fs msg sa none).sessionAttributes = sa := by
  cases sa <;> simp [LexResultFactory.dialogActionClose, LexResultFactory.maybeAddToResult]

theorem dialogActionDelegate_dialogAction (sl : Option (String → Option String))
    (sa : Option SessionAttributes) :
    (LexResultFactory.dialogActionDelegate sl sa none).dialogAction =
      LexDialogAction.delegate sl := by
  exact maybeAddToResult_dialogAction _ _ _

theorem dialogActionElicitSlot_dialogAction (iname sname : String)
    (sl : String → Option String) (msg : Option ResponseMessage)
    (sa : Option SessionAttributes) :
    (LexResultFactory.dialogActionElicitSlot iname sname sl msg sa none).dialogAction =
      LexDialogAction.elicitSlot iname sname sl msg := by
  exact maybeAddToResult_dialogAction _ _ _

theorem handleLoop_skip (config : DialogEventHandlerConfig) (l1 : List String) :
    ∀ (rest : List String) (st : HandleState),
    (∀ n ∈ l1, ∃ ev, st.evalMap n = some ev ∧
        (ev.evaluate st.lexEvent).valid ≠ SlotValidationAssessment.INVALID) →
    handleLoop config (l1 ++ rest) st =
      handleLoop config rest { st with invoked := st.invoked ++ l1 } := by
  induction l1 with
  | nil => intro rest st _h; simp
  | cons n l1t ih =>
    intro rest st h
    obtain ⟨ev, hev, hvalid⟩ := h n (by simp)
    have hstep : handleLoop config ((n :: l1t) ++ rest) st = handleLoop config (l1t ++ rest)
        { st with invoked := st.invoked ++ [n] } := by
      simp only [List.cons_append, handleLoop, getSlotEvaluator_of_some hev]
      rw [if_neg hvalid]
      rfl
    rw [hstep, ih rest { st with invoked := st.invoked ++ [n] }
      (by intro x hx; exact h x (List.mem_cons_of_mem _ hx))]
    congr 1
    simp

theorem handleLoop_invalid (config : DialogEventHandlerConfig) {st : HandleState} {n : String}
    {ev : SlotEvaluator} (rest : List String)
    (hev : st.evalMap n = some ev)
    (hinv : (ev.evaluate st.lexEvent).valid = SlotValidationAssessment.INVALID) :
    handleLoop config (n :: rest) st =
      (some (match config.invalidSlotResponder with
        | some f => f (clearSlot st.lexEvent n) ev (ev.evaluate st.lexEvent)
        | none => defaultInvalidSlotResponder (clearSlot st.lexEvent n) ev (ev.evaluate st.lexEvent)),
       { lexEvent := clearSlot st.lexEvent n, evalMap := st.evalMap,
         invoked := st.invoked ++ [n] }) := by
  simp only [handleLoop, getSlotEvaluator_of_some hev]
  rw [if_pos hinv]

theorem handleLoop_map_unchanged (config : DialogEventHandlerConfig) (l : List String) :
    ∀ st : HandleState, (∀ n ∈ l, (st.evalMap n).isSome) →
    (handleLoop config l st).2.evalMap = st.evalMap := by
  induction l with
  | nil => intro st _h; simp [handleLoop]
  | cons n lt ih =>
    intro st h
    obtain ⟨ev, hev⟩ := Option.isSome_iff_exists.1 (h n (by simp))
    simp only [handleLoop, getSlotEvaluator_of_some hev]
    by_cases hc : (ev.evaluate st.lexEvent).valid = SlotValidationAssessment.INVALID
    · rw [if_pos hc]
    · rw [if_neg hc]
      exact ih _ (fun x hx => h x (by simp [hx]))

theorem handle_eq_of_loop_some (h : DefaultDialogEventHandler) (e : LexEvent) (r : LexResult)
    (st : HandleState)
    (hl : handleLoop h.config h.slotNameArray
      { lexEvent := e, evalMap := h.slotEvaluatorMap, invoked := [] } = (some r, st)) :
    h.handle e = (r, st) := by
  unfold DefaultDialogEventHandler.handle
  rw [hl]

theorem handle_eq_of_loop_none (h : DefaultDialogEventHandler) (e : LexEvent) (st : HandleState)
    (hl : handleLoop h.config h.slotNameArray
      { lexEvent := e, evalMap := h.slotEvaluatorMap, invoked := [] } = (none, st)) :
    h.handle e = match h.config.allSlotsValidResponder with
      | some f => (f st.lexEvent, st)
      | none => (defaultAllSlotsValidResponder st.lexEvent, st) := by
  unfold DefaultDialogEventHandler.handle
  rw [hl]

theorem handlerAssess_eq_some_invalid {h : DefaultDialogEventHandler} {e : LexEvent} {n : String}
    (hinv : handlerAssess h e n = some SlotValidationAssessment.INVALID) :
    ∃ ev, h.slotEvaluatorMap n = some ev ∧
      (ev.evaluate e).valid = SlotValidationAssessment.INVALID := by
  unfold handlerAssess at hinv
  cases hm : h.slotEvaluatorMap n with
  | none => rw [hm] at hinv; simp at hinv
  | some e0 =>
    rw [hm] at hinv
    simp only [Option.map_some', Option.some.injEq] at hinv
    exact ⟨e0, rfl, hinv⟩

theorem handle_first_invalid (config : DialogEventHandlerConfig) (lexEvent : LexEvent)
    (l1 : List String) (n : String) (l2 : List String)
    (hnames : (mkDefaultDialogEventHandler config).slotNameArray = l1 ++ n :: l2)
    (hvalid : ∀ m ∈ l1, handlerAssess (mkDefaultDialogEventHandler config) lexEvent m ≠
      some SlotValidationAssessment.INVALID)
    (hinv : handlerAssess (mkDefaultDialogEventHandler config) lexEvent n =
      some SlotValidationAssessment.INVALID) :
    ∃ ev, (mkDefaultDialogEventHandler config).slotEvaluatorMap n = some ev ∧
      ev.slotName = n ∧
      (ev.evaluate lexEvent).valid = SlotValidationAssessment.INVALID ∧
      (mkDefaultDialogEventHandler config).handle lexEvent =
        ((match config.invalidSlotResponder with
          | some f => f (clearSlot lexEvent n) ev (ev.evaluate lexEvent)
          | none => defaultInvalidSlotResponder (clearSlot lexEvent n) ev (ev.evaluate lexEvent)),
         { lexEvent := clearSlot lexEvent n,
           evalMap := (mkDefaultDialogEventHandler config).slotEvaluatorMap,
           invoked := l1 ++ [n] }) := by
  obtain ⟨ev, hev, hv⟩ := handlerAssess_eq_some_invalid hinv
  refine ⟨ev, hev, mkHandler_lookup_slotName config n ev hev, hv, ?_⟩
  apply handle_eq_of_loop_some
  rw [hnames]
  rw [handleLoop_skip (mkDefaultDialogEventHandler config).config l1 (n :: l2)
    { lexEvent := lexEvent, evalMap := (mkDefaultDialogEventHandler config).slotEvaluatorMap,
      invoked := [] }
    (by
      intro m hm
      have hsome := mkHandler_lookup_isSome config m
        (by rw [hnames]; exact List.mem_append_left _ hm)
      obtain ⟨e1, he1⟩ := Option.isSome_iff_exists.1 hsome
      refine ⟨e1, he1, ?_⟩
      intro hbad
      apply hvalid m hm
      unfold handlerAssess
      rw [he1, Option.map_some', hbad])]
  rw [handleLoop_invalid (mkDefaultDialogEventHandler config).config l2 hev hv]
  simp
  rfl

theorem handlerAssess_eq_some {h : DefaultDialogEventHandler} {e : LexEvent} {n : String}
    {a : SlotValidationAssessment} (ha : handlerAssess h e n = some a) :
    ∃ ev, h.slotEvaluatorMap n = some ev ∧ (ev.evaluate e).valid = a := by
  unfold handlerAssess at ha
  cases hm : h.slotEvaluatorMap n with
  | none => rw [hm] at ha; simp at ha
  | some e0 =>
    rw [hm] at ha
    simp only [Option.map_some', Option.some.injEq] at ha
    exact ⟨e0, rfl, ha⟩

theorem handle_all_valid (config : DialogEventHandlerConfig) (lexEvent : LexEvent)
    (hall : ∀ n ∈ (mkDefaultDialogEventHandler config).slotNameArray,
      handlerAssess (mkDefaultDialogEventHandler config) lexEvent n ≠
        some SlotValidationAssessment.INVALID) :
    (mkDefaultDialogEventHandler config).handle lexEvent =
      match config.allSlotsValidResponder with
      | some f => (f lexEvent,
          { lexEvent := lexEvent,
            evalMap := (mkDefaultDialogEventHandler config).slotEvaluatorMap,
            invoked := (mkDefaultDialogEventHandler config).slotNameArray })
      | none => (defaultAllSlotsValidResponder lexEvent,
          { lexEvent := lexEvent,
            evalMap := (mkDefaultDialogEventHandler config).slotEvaluatorMap,
            invoked := (mkDefaultDialogEventHandler config).slotNameArray }) := by
  have hcond : ∀ m ∈ (mkDefaultDialogEventHandler config).slotNameArray,
      ∃ ev, (mkDefaultDialogEventHandler config).slotEvaluatorMap m = some ev ∧
        (ev.evaluate lexEvent).valid ≠ SlotValidationAssessment.INVALID := by
    intro m hm
    obtain ⟨e1, he1⟩ := Option.isSome_iff_exists.1 (mkHandler_lookup_isSome config m hm)
    refine ⟨e1, he1, ?_⟩
    intro hbad
    apply hall m hm
    unfold handlerAssess
    rw [he1, Option.map_some', hbad]
  have h1 := handleLoop_skip (mkDefaultDialogEventHandler config).config
    (mkDefaultDialogEventHandler config).slotNameArray []
    { lexEvent := lexEvent, evalMap := (mkDefaultDialogEventHandler config).slotEvaluatorMap,
      invoked := [] } hcond
  rw [List.append_nil] at h1
  have hl : handleLoop (mkDefaultDialogEventHandler config).config
      (mkDefaultDialogEventHandler config).slotNameArray
      { lexEvent := lexEvent, evalMap := (mkDefaultDialogEventHandler config).slotEvaluatorMap,
        invoked := [] } =
      (none, { lexEvent := lexEvent,
               evalMap := (mkDefaultDialogEventHandler config).slotEvaluatorMap,
               invoked := (mkDefaultDialogEventHandler config).slotNameArray }) := by
    rw [h1]
    simp [handleLoop]
  rw [handle_eq_of_loop_none (mkDefaultDialogEventHandler config) lexEvent _ hl]
  rfl

/-- C1: For every engine configuration and every turn, the Decision Engine
(DefaultDialogEventHandler.handle) evaluates slots in exactly the order their
evaluators appear in the configuration's slotEvaluatorArray (the preserved
slotNameArray is the array's slot names in registration order, and the invoked
trace stops at the first slot whose assessment is INVALID, so no evaluator after
it is invoked in that call), and with the default rejection responder the slot
named in the rejection response is that first INVALID slot. -/
theorem claim_C1_first_invalid_stops_in_order (config : DialogEventHandlerConfig)
    (lexEvent : LexEvent) (l1 : List String) (n : String) (l2 : List String)
    (hnames : (mkDefaultDialogEventHandler config).slotNameArray = l1 ++ n :: l2)
    (hvalid : ∀ m ∈ l1, handlerAssess (mkDefaultDialogEventHandler config) lexEvent m ≠
      some SlotValidationAssessment.INVALID)
    (hinv : handlerAssess (mkDefaultDialogEventHandler config) lexEvent n =
      some SlotValidationAssessment.INVALID) :
    (mkDefaultDialogEventHandler config).slotNameArray =
      config.slotEvaluatorArray.map (fun se => se.slotName)
    ∧ ((mkDefaultDialogEventHandler config).handle lexEvent).2.invoked = l1 ++ [n]
    ∧ (config.invalidSlotResponder = none →
        dialogActionSlotToElicit
          ((mkDefaultDialogEventHandler config).handle lexEvent).1.dialogAction = some n) := by
  obtain ⟨ev, hev, hsn, hv, hhandle⟩ :=
    handle_first_invalid config lexEvent l1 n l2 hnames hvalid hinv
  refine ⟨?_, ?_, ?_⟩
  · simp [mkDefaultDialogEventHandler, buildEvaluatorState_names]
  · rw [hhandle]
  · intro hresp
    rw [hhandle]
    simp only [hresp]
    simp [defaultInvalidSlotResponder, dialogActionElicitSlot_dialogAction,
      dialogActionSlotToElicit, hsn]

/-- C2: For every turn, when the first INVALID slot is reached (the only slot a
call ever assesses INVALID) and no custom rejection responder is configured, the
ElicitSlot re-ask result has that slot's value explicitly absent in its slot map
even when the inbound turn carried a value for it, and the turn's own slot entry
is mutated to absent (the response is built from the already-cleared event). -/
theorem claim_C2_rejected_slot_cleared (config : DialogEventHandlerConfig)
    (lexEvent : LexEvent) (l1 : List String) (n : String) (l2 : List String)
    (hnames : (mkDefaultDialogEventHandler config).slotNameArray = l1 ++ n :: l2)
    (hvalid : ∀ m ∈ l1, handlerAssess (mkDefaultDialogEventHandler config) lexEvent m ≠
      some SlotValidationAssessment.INVALID)
    (hinv : handlerAssess (mkDefaultDialogEventHandler config) lexEvent n =
      some SlotValidationAssessment.INVALID)
    (hresp : config.invalidSlotResponder = none) :
    ∃ ev, (mkDefaultDialogEventHandler config).slotEvaluatorMap n = some ev ∧
      ((mkDefaultDialogEventHandler config).handle lexEvent).1.dialogAction =
        LexDialogAction.elicitSlot lexEvent.currentIntent.name n
          ((clearSlot lexEvent n).currentIntent.slots)
          (some { contentType := ContentType.plainText, content := ev.promptMessage })
      ∧ (clearSlot lexEvent n).currentIntent.slots n = none
      ∧ ((mkDefaultDialogEventHandler config).handle lexEvent).2.lexEvent.currentIntent.slots n =
          none := by
  obtain ⟨ev, hev, hsn, hv, hhandle⟩ :=
    handle_first_invalid config lexEvent l1 n l2 hnames hvalid hinv
  refine ⟨ev, hev, ?_, ?_, ?_⟩
  · rw [hhandle]
    simp only [hresp]
    simp [defaultInvalidSlotResponder, dialogActionElicitSlot_dialogAction, clearSlot, hsn]
  · simp [clearSlot]
  · rw [hhandle]
    simp [clearSlot]

/-- C9: For every turn on which every configured slot is assessed valid (VALID or
VALID_RECENT), with no hooks and no custom responders configured, handle returns a
Delegate result whose slot map is the inbound turn's slot map, and the turn is not
mutated by the call (the final event is the inbound event). -/
theorem claim_C9_all_valid_delegates_unchanged (config : DialogEventHandlerConfig)
    (lexEvent : LexEvent)
    (hall : ∀ n ∈ (mkDefaultDialogEventHandler config).slotNameArray,
      handlerAssess (mkDefaultDialogEventHandler config) lexEvent n =
        some SlotValidationAssessment.VALID_SLOT ∨
      handlerAssess (mkDefaultDialogEventHandler config) lexEvent n =
        some SlotValidationAssessment.VALID_RECENT_SLOT)
    (hh1 : config.slotEvaluationHook = none)
    (hh2 : config.allSlotsValidHook = none)
    (hr1 : config.invalidSlotResponder = none)
    (hr2 : config.allSlotsValidResponder = none) :
    (mkDefaultDialogEventHandler config).handle lexEvent =
      (LexResultFactory.dialogActionDelegate (some lexEvent.currentIntent.slots)
        lexEvent.sessionAttributes none,
       { lexEvent := lexEvent,
         evalMap := (mkDefaultDialogEventHandler config).slotEvaluatorMap,
         invoked := (mkDefaultDialogEventHandler config).slotNameArray })
    ∧ ((mkDefaultDialogEventHandler config).handle lexEvent).1.dialogAction =
        LexDialogAction.delegate (some lexEvent.currentIntent.slots)
    ∧ ((mkDefaultDialogEventHandler config).handle lexEvent).2.lexEvent = lexEvent := by
  have hne : ∀ n ∈ (mkDefaultDialogEventHandler config).slotNameArray,
      handlerAssess (mkDefaultDialogEventHandler config) lexEvent n ≠
        some SlotValidationAssessment.INVALID := by
    intro m hm
    rcases hall m hm with h | h <;> rw [h] <;> simp
  have hmain := handle_all_valid config lexEvent hne
  simp only [hr2] at hmain
  refine ⟨?_, ?_, ?_⟩
  · rw [hmain]
    rfl
  · rw [hmain]
    exact dialogActionDelegate_dialogAction _ _
  · rw [hmain]

/-- C10: For every handler built by the constructor, every slot name in the
preserved slotNameArray already has an entry in the evaluator map (so
getSlotEvaluator returns it without extending the map), and a handle call never
changes the evaluator map: the missing-evaluator fallback branch is unreachable
during handle. -/
theorem claim_C10_fallback_unreachable (config : DialogEventHandlerConfig) :
    (∀ n ∈ (mkDefaultDialogEventHandler config).slotNameArray,
      ∃ ev, (mkDefaultDialogEventHandler config).slotEvaluatorMap n = some ev ∧
        getSlotEvaluator (mkDefaultDialogEventHandler config).slotEvaluatorMap n =
          (ev, (mkDefaultDialogEventHandler config).slotEvaluatorMap))
    ∧ ∀ lexEvent : LexEvent,
        ((mkDefaultDialogEventHandler config).handle lexEvent).2.evalMap =
          (mkDefaultDialogEventHandler config).slotEvaluatorMap := by
  constructor
  · intro n hn
    obtain ⟨ev, hev⟩ := Option.isSome_iff_exists.1 (mkHandler_lookup_isSome config n hn)
    exact ⟨ev, hev, getSlotEvaluator_of_some hev⟩
  · intro lexEvent
    have hm := handleLoop_map_unchanged (mkDefaultDialogEventHandler config).config
      (mkDefaultDialogEventHandler config).slotNameArray
      { lexEvent := lexEvent, evalMap := (mkDefaultDialogEventHandler config).slotEvaluatorMap,
        invoked := [] }
      (fun n hn => mkHandler_lookup_isSome config n hn)
    rcases hl : handleLoop (mkDefaultDialogEventHandler config).config
        (mkDefaultDialogEventHandler config).slotNameArray
        { lexEvent := lexEvent, evalMap := (mkDefaultDialogEventHandler config).slotEvaluatorMap,
          invoked := [] } with ⟨res, st⟩
    rw [hl] at hm
    cases res with
    | some r =>
      rw [handle_eq_of_loop_some (mkDefaultDialogEventHandler config) lexEvent r st hl]
      exact hm
    | none =>
      rw [handle_eq_of_loop_none (mkDefaultDialogEventHandler config) lexEvent st hl]
      cases hresp : (mkDefaultDialogEventHandler config).config.allSlotsValidResponder with
      | some f =>
        simp only [hresp]
        exact hm
      | none =>
        simp only [hresp]
        exact hm

/-- C3: For every concrete evaluator variant (non-absence, set-membership, date,
currency) and every turn whose most recent Turn Summary matching the current
intent name shows a non-absent value for the evaluator's slot, evaluation yields
VALID_RECENT_SLOT regardless of the current turn's value for that slot. -/
theorem claim_C3_recent_value_short_circuits (ev : SlotEvaluator) (sn : String)
    (lexEvent : LexEvent) (summary : IntentSummary) (rv : String)
    (hvar : (∃ pm, ev = StandardSlotEvaluators.NotNullSlotEvaluator sn pm) ∨
      (∃ pm ms, ev = StandardSlotEvaluators.SetMembershipSlotEvaluator sn pm ms) ∨
      (∃ pm, ev = StandardSlotEvaluators.LexDateSlotEvaluator sn pm) ∨
      (∃ pm, ev = StandardSlotEvaluators.CurrencySlotEvaluator sn pm))
    (hsum : StandardSlotEvaluators.getRecentIntentSummary lexEvent = some summary)
    (hval : summary.slots sn = some rv) :
    (ev.evaluate lexEvent).valid = SlotValidationAssessment.VALID_RECENT_SLOT := by
  have hrv : (StandardSlotEvaluators.getSlotValue sn lexEvent).recentValue = some rv := by
    simp [StandardSlotEvaluators.getSlotValue, hsum, hval]
  have hbase : StandardSlotEvaluators.baseIsValid
      (StandardSlotEvaluators.getSlotValue sn lexEvent) =
      SlotValidationAssessment.VALID_RECENT_SLOT := by
    simp [StandardSlotEvaluators.baseIsValid, hrv]
  rcases hvar with ⟨pm, rfl⟩ | ⟨pm, ms, rfl⟩ | ⟨pm, rfl⟩ | ⟨pm, rfl⟩ <;>
    simp [StandardSlotEvaluators.NotNullSlotEvaluator,
      StandardSlotEvaluators.SetMembershipSlotEvaluator,
      StandardSlotEvaluators.LexDateSlotEvaluator,
      StandardSlotEvaluators.CurrencySlotEvaluator,
      StandardSlotEvaluators.mkEvaluator, StandardSlotEvaluators.notNullIsValid,
      StandardSlotEvaluators.setMembershipIsValid, StandardSlotEvaluators.lexDateIsValid,
      StandardSlotEvaluators.currencyIsValid, hbase]

/-- C4: For every Lex event, if the selected handler fails, or the invocation
source is neither DialogCodeHook nor FulfillmentCodeHook, route returns a Close
result with fulfillment state Failed and the generic plain-text message, carrying
the inbound event's session attributes unchanged; the exception is not re-raised
(route is total by construction). -/
theorem claim_C4_route_failure_closes (lexEvent : LexEvent) (eventHandler : LexEventHandler)
    (hfail : (lexEvent.invocationSource = "DialogCodeHook" ∧
        ∃ msg, eventHandler.dialog.handle lexEvent = Except.error msg)
      ∨ (lexEvent.invocationSource = "FulfillmentCodeHook" ∧
        ∃ msg, eventHandler.fulfill.handle lexEvent = Except.error msg)
      ∨ (lexEvent.invocationSource ≠ "DialogCodeHook" ∧
        lexEvent.invocationSource ≠ "FulfillmentCodeHook")) :
    route lexEvent eventHandler =
      LexResultFactory.dialogActionClose FulfillmentState.Failed
        (some { contentType := ContentType.plainText, content := "Unxpected error occurred" })
        lexEvent.sessionAttributes none
    ∧ (route lexEvent eventHandler).sessionAttributes = lexEvent.sessionAttributes := by
  have hroute : route lexEvent eventHandler =
      LexResultFactory.dialogActionClose FulfillmentState.Failed
        (some { contentType := ContentType.plainText, content := "Unxpected error occurred" })
        lexEvent.sessionAttributes none := by
    unfold route
    rcases hfail with ⟨hsrc, msg, herr⟩ | ⟨hsrc, msg, herr⟩ | ⟨h1, h2⟩
    · rw [if_pos hsrc, herr]
    · rw [hsrc, if_neg (by decide), if_pos rfl, herr]
    · rw [if_neg h1, if_neg h2]
  refine ⟨hroute, ?_⟩
  rw [hroute]
  exact dialogActionClose_sessionAttributes _ _ _

theorem currencyRegexTest_iff_shape (l : List Char) :
    currencyRegexTest l = true ↔ currencyClaimShape l := by
  induction l with
  | nil =>
    constructor
    · intro h
      simp [currencyRegexTest] at h
    · rintro ⟨a, d1, d2, r, h, -, -, -⟩
      cases a <;> simp at h
  | cons c rest ih =>
    by_cases hd : c.isDigit = true
    · have hnd : c ≠ '.' := by
        intro hc
        rw [hc] at hd
        exact absurd hd (by decide)
      have hstep : currencyRegexTest (c :: rest) = currencyRegexTest rest := by
        simp [currencyRegexTest, hd]
      rw [hstep, ih]
      constructor
      · rintro ⟨a, d1, d2, r, h1, h2, h3, h4⟩
        refine ⟨c :: a, d1, d2, r, by simp [h1], ?_, h3, h4⟩
        intro x hx
        rcases List.mem_cons.1 hx with hx1 | hx2
        · rw [hx1]; exact hd
        · exact h2 x hx2
      · rintro ⟨a, d1, d2, r, h1, h2, h3, h4⟩
        cases a with
        | nil =>
          simp only [List.nil_append, List.cons.injEq] at h1
          exact absurd h1.1 hnd
        | cons a0 arest =>
          simp only [List.cons_append, List.cons.injEq] at h1
          obtain ⟨hc0, hrest⟩ := h1
          exact ⟨arest, d1, d2, r, hrest,
            fun x hx => h2 x (List.mem_cons_of_mem _ hx), h3, h4⟩
    · by_cases hdot : c = '.'
      · subst hdot
        constructor
        · intro h
          match rest, h with
          | d1 :: d2 :: r, h =>
            have hdd : (d1.isDigit && d2.isDigit) = true := by
              have hc : currencyRegexTest ('.' :: d1 :: d2 :: r) =
                  (d1.isDigit && d2.isDigit) := rfl
              rw [hc] at h
              exact h
            obtain ⟨h3, h4⟩ := (Bool.and_eq_true _ _).mp hdd
            exact ⟨[], d1, d2, r, by simp, by simp, h3, h4⟩
          | [], h => simp [currencyRegexTest] at h
          | [d1], h => simp [currencyRegexTest] at h
        · rintro ⟨a, d1, d2, r, h1, h2, h3, h4⟩
          cases a with
          | nil =>
            simp only [List.nil_append, List.cons.injEq] at h1
            obtain ⟨-, hrest⟩ := h1
            rw [hrest]
            simp [currencyRegexTest, h3, h4]
          | cons a0 arest =>
            simp only [List.cons_append, List.cons.injEq] at h1
            obtain ⟨hc0, -⟩ := h1
            have hda : a0.isDigit = true := h2 a0 (by simp)
            rw [← hc0] at hda
            exact absurd hda (by decide)
      · constructor
        · intro h
          simp [currencyRegexTest, hd, hdot] at h
        · rintro ⟨a, d1, d2, r, h1, h2, h3, h4⟩
          cases a with
          | nil =>
            simp only [List.nil_append, List.cons.injEq] at h1
            exact absurd h1.1 hdot
          | cons a0 arest =>
            simp only [List.cons_append, List.cons.injEq] at h1
            obtain ⟨hc0, -⟩ := h1
            have hda : a0.isDigit = true := h2 a0 (by simp)
            rw [← hc0] at hda
            exact absurd hda hd

theorem isValidLexDate_iff (s : String) :
    Util.isValidLexDate (some s) = true ↔
      (lexDateClaimCondition s = true ∧
        Util.jsDateParse s ≠ some { year := 1970, month := 1, day := 1 }) := by
  simp only [Util.isValidLexDate, lexDateClaimCondition]
  by_cases hE : s.data.isEmpty = true
  · have hnil : s.data = [] := List.isEmpty_iff.1 hE
    simp [hE, hnil]
  · rw [if_neg hE]
    cases hC : s.data.contains '-' with
    | false => simp [hC]
    | true =>
      rw [if_neg (by simp [hC])]
      simp only [hC, Bool.true_and]
      cases hP : Util.jsDateParse s with
      | none => simp
      | some date =>
        by_cases hep : date = { year := 1970, month := 1, day := 1 }
        · simp [hep]
        · simp [hep]

theorem find?_first_matching {α : Type} (p : α → Bool) (l1 : List α) (a : α) (l2 : List α)
    (h1 : ∀ x ∈ l1, p x = false) (ha : p a = true) :
    (l1 ++ a :: l2).find? p = some a := by
  induction l1 with
  | nil =>
    rw [List.nil_append]
    exact List.find?_cons_of_pos l2 ha
  | cons j jt ih =>
    rw [List.cons_append, List.find?_cons_of_neg (jt ++ a :: l2) (by simp [h1 j (by simp)])]
    exact ih (fun x hx => h1 x (List.mem_cons_of_mem _ hx))

/-- C5 (amended): the date evaluator with no recent-summary value assesses, for
every value in the padded YYYY-MM-DD digit shape (the only dash-separated form
the appended "T00:00:00" lets V8 parse), the current value VALID_SLOT exactly
when reconstructing a date from the string yields the same day-of-month number
as the digits after the last dash and the reconstructed date is not 1970-01-01
(whose local-midnight time value is zero, hence falsy, under a UTC runtime); in
particular "2020-02-30" is INVALID by day rollover, "2020-07-06" is VALID_SLOT,
and any string with no dash is INVALID. -/
theorem claim_C5_amended_date_validation (sn pm : String) (det : Option SlotDetail)
    (el : Option String) :
    (∀ s : String, isPaddedLexDateShape s = true →
      ((StandardSlotEvaluators.LexDateSlotEvaluator sn pm).isValid
        { value := some s, recentValue := none, details := det, elicitedSlotName := el } =
        SlotValidationAssessment.VALID_SLOT ↔
      (lexDateClaimCondition s = true ∧
        Util.jsDateParse s ≠ some { year := 1970, month := 1, day := 1 })))
    ∧ (StandardSlotEvaluators.LexDateSlotEvaluator sn pm).isValid
        { value := some "2020-02-30", recentValue := none, details := none,
          elicitedSlotName := none } = SlotValidationAssessment.INVALID
    ∧ (StandardSlotEvaluators.LexDateSlotEvaluator sn pm).isValid
        { value := some "2020-07-06", recentValue := none, details := none,
          elicitedSlotName := none } = SlotValidationAssessment.VALID_SLOT
    ∧ (∀ s : String, s.data.contains '-' = false →
        (StandardSlotEvaluators.LexDateSlotEvaluator sn pm).isValid
          { value := some s, recentValue := none, details := det, elicitedSlotName := el } =
          SlotValidationAssessment.INVALID) := by
  refine ⟨?_, by rfl, by rfl, ?_⟩
  · intro s _hpad
    rw [← isValidLexDate_iff]
    have hred : (StandardSlotEvaluators.LexDateSlotEvaluator sn pm).isValid
        { value := some s, recentValue := none, details := det, elicitedSlotName := el } =
        (if Util.isValidLexDate (some s) then SlotValidationAssessment.VALID_SLOT
         else SlotValidationAssessment.INVALID) := rfl
    rw [hred]
    cases hv : Util.isValidLexDate (some s) <;> simp [hv]
  · intro s hC
    have hfalse : Util.isValidLexDate (some s) = false := by
      simp only [Util.isValidLexDate]
      by_cases hE : s.data.isEmpty = true
      · rw [if_pos hE]
      · rw [if_neg hE, if_pos (by rw [hC]; rfl)]
    have hred : (StandardSlotEvaluators.LexDateSlotEvaluator sn pm).isValid
        { value := some s, recentValue := none, details := det, elicitedSlotName := el } =
        (if Util.isValidLexDate (some s) then SlotValidationAssessment.VALID_SLOT
         else SlotValidationAssessment.INVALID) := rfl
    rw [hred, hfalse]
    rfl

/-- C5 counterexample: at the concrete input "1970-01-01" the claim's condition
holds (it contains a dash and the reconstructed day-of-month, 1, equals the
digits after the last dash) yet the evaluator assesses INVALID, because the
epoch's zero time value fails the code's Boolean check under a UTC runtime. -/
theorem claim_C5_counterexample :
    ¬ ((StandardSlotEvaluators.LexDateSlotEvaluator "D" "p").isValid
        { value := some "1970-01-01", recentValue := none, details := none,
          elicitedSlotName := none } = SlotValidationAssessment.VALID_SLOT ↔
      lexDateClaimCondition "1970-01-01" = true) := by
  decide

/-- C6: the currency evaluator with no recent-summary value assesses the current
value VALID_SLOT exactly when the value has a prefix of the form digits, a
literal decimal point and two digits — anchored at the start only; in particular
"12.5" is INVALID, "12.50" is VALID_SLOT, and "12.50xyz" also passes. -/
theorem claim_C6_currency_prefix_match (sn pm : String) (det : Option SlotDetail)
    (el : Option String) :
    (∀ s : String,
      (StandardSlotEvaluators.CurrencySlotEvaluator sn pm).isValid
        { value := some s, recentValue := none, details := det, elicitedSlotName := el } =
        SlotValidationAssessment.VALID_SLOT ↔ currencyClaimShape s.data)
    ∧ (StandardSlotEvaluators.CurrencySlotEvaluator sn pm).isValid
        { value := some "12.5", recentValue := none, details := none,
          elicitedSlotName := none } = SlotValidationAssessment.INVALID
    ∧ (StandardSlotEvaluators.CurrencySlotEvaluator sn pm).isValid
        { value := some "12.50", recentValue := none, details := none,
          elicitedSlotName := none } = SlotValidationAssessment.VALID_SLOT
    ∧ (StandardSlotEvaluators.CurrencySlotEvaluator sn pm).isValid
        { value := some "12.50xyz", recentValue := none, details := none,
          elicitedSlotName := none } = SlotValidationAssessment.VALID_SLOT := by
  refine ⟨?_, by rfl, by rfl, by rfl⟩
  intro s
  rw [← currencyRegexTest_iff_shape]
  have hred : (StandardSlotEvaluators.CurrencySlotEvaluator sn pm).isValid
      { value := some s, recentValue := none, details := det, elicitedSlotName := el } =
      (if currencyRegexTest s.data then SlotValidationAssessment.VALID_SLOT
       else SlotValidationAssessment.INVALID) := rfl
  rw [hred]
  cases hv : currencyRegexTest s.data <;> simp [hv]

/-- C7 (amended): the non-absence evaluator with no recent-summary value assesses
the current value VALID_SLOT exactly when the value is truthy — present and
non-empty; the empty string, though present, is assessed INVALID. -/
theorem claim_C7_amended_not_null_truthy (sn pm : String) (det : Option SlotDetail)
    (el : Option String) (v : Option String) :
    (StandardSlotEvaluators.NotNullSlotEvaluator sn pm).isValid
      { value := v, recentValue := none, details := det, elicitedSlotName := el } =
      SlotValidationAssessment.VALID_SLOT ↔ (v ≠ none ∧ v ≠ some "") := by
  cases v with
  | none =>
    have hred : (StandardSlotEvaluators.NotNullSlotEvaluator sn pm).isValid
        { value := none, recentValue := none, details := det, elicitedSlotName := el } =
        SlotValidationAssessment.INVALID := rfl
    rw [hred]
    simp
  | some s =>
    have hred : (StandardSlotEvaluators.NotNullSlotEvaluator sn pm).isValid
        { value := some s, recentValue := none, details := det, elicitedSlotName := el } =
        (if jsTruthyString (some s) then SlotValidationAssessment.VALID_SLOT
         else SlotValidationAssessment.INVALID) := rfl
    rw [hred]
    by_cases hs : s = ""
    · subst hs
      have h2 : jsTruthyString (some "") = false := rfl
      rw [h2]
      simp
    · have hne : s.data.isEmpty = false := by
        cases hd : s.data.isEmpty with
        | false => rfl
        | true => exact absurd (@String.ext s "" (List.isEmpty_iff.1 hd)) hs
      simp [jsTruthyString, hne, hs]

/-- C7 counterexample: at the concrete input of a present empty string the claim
(VALID_SLOT exactly when the value is non-absent) fails — the empty string is
non-absent yet the evaluator, testing JavaScript truthiness, assesses INVALID. -/
theorem claim_C7_counterexample :
    ¬ ((StandardSlotEvaluators.NotNullSlotEvaluator "A" "p").isValid
      { value := some "", recentValue := none, details := none, elicitedSlotName := none } =
      SlotValidationAssessment.VALID_SLOT ↔ some "" ≠ (none : Option String)) := by
  decide

/-- C8: the prior value and elicited-slot-name of the Evaluatable Slot Value come
from the first summary in list order whose intent name equals the current turn's
intent name; when no summary matches, or the list is absent, both are absent. -/
theorem claim_C8_first_matching_summary (slotName : String) (lexEvent : LexEvent) :
    (lexEvent.recentIntentSummaryView = none →
      (StandardSlotEvaluators.getSlotValue slotName lexEvent).recentValue = none ∧
      (StandardSlotEvaluators.getSlotValue slotName lexEvent).elicitedSlotName = none)
    ∧ (∀ view, lexEvent.recentIntentSummaryView = some view →
        (∀ s ∈ view, s.intentName ≠ lexEvent.currentIntent.name) →
        (StandardSlotEvaluators.getSlotValue slotName lexEvent).recentValue = none ∧
        (StandardSlotEvaluators.getSlotValue slotName lexEvent).elicitedSlotName = none)
    ∧ (∀ (l1 : List IntentSummary) (s : IntentSummary) (l2 : List IntentSummary),
        lexEvent.recentIntentSummaryView = some (l1 ++ s :: l2) →
        (∀ j ∈ l1, j.intentName ≠ lexEvent.currentIntent.name) →
        s.intentName = lexEvent.currentIntent.name →
        (StandardSlotEvaluators.getSlotValue slotName lexEvent).recentValue =
          s.slots slotName ∧
        (StandardSlotEvaluators.getSlotValue slotName lexEvent).elicitedSlotName =
          some s.slotToElicit) := by
  refine ⟨?_, ?_, ?_⟩
  · intro h
    constructor <;>
      simp [StandardSlotEvaluators.getSlotValue, StandardSlotEvaluators.getRecentIntentSummary, h]
  · intro view hv hnone
    have hfind : view.find? (fun x => x.intentName == lexEvent.currentIntent.name) = none := by
      rw [List.find?_eq_none]
      intro x hx hbeq
      exact hnone x hx (by simpa using hbeq)
    constructor <;>
      simp [StandardSlotEvaluators.getSlotValue, StandardSlotEvaluators.getRecentIntentSummary,
        hv, hfind]
  · intro l1 s l2 hv hl1 hs
    have hfind : (l1 ++ s :: l2).find?
        (fun x => x.intentName == lexEvent.currentIntent.name) = some s := by
      apply find?_first_matching
      · intro x hx
        simp only [beq_eq_false_iff_ne, ne_eq]
        exact hl1 x hx
      · simp [hs]
    constructor <;>
      simp [StandardSlotEvaluators.getSlotValue, StandardSlotEvaluators.getRecentIntentSummary,
        hv, hfind]

/-- Witness for C1 at a concrete configuration (non-absence for A, then
set-membership for B) and a turn where A is valid and B is rejected. -/
theorem claim_C1_witness :
    (mkDefaultDialogEventHandler cfgFixture).slotNameArray =
      cfgFixture.slotEvaluatorArray.map (fun se => se.slotName)
    ∧ ((mkDefaultDialogEventHandler cfgFixture).handle eventFixtureInvalidB).2.invoked =
        ["A", "B"]
    ∧ (cfgFixture.invalidSlotResponder = none →
        dialogActionSlotToElicit
          ((mkDefaultDialogEventHandler cfgFixture).handle eventFixtureInvalidB).1.dialogAction =
          some "B") :=
  claim_C1_first_invalid_stops_in_order cfgFixture eventFixtureInvalidB ["A"] "B" []
    rfl (by decide) (by decide)

/-- Witness for C2 at the same concrete configuration and turn: the rejected slot
B is absent in the response's slot map although the turn carried the value z. -/
theorem claim_C2_witness :
    ∃ ev, (mkDefaultDialogEventHandler cfgFixture).slotEvaluatorMap "B" = some ev ∧
      ((mkDefaultDialogEventHandler cfgFixture).handle eventFixtureInvalidB).1.dialogAction =
        LexDialogAction.elicitSlot eventFixtureInvalidB.currentIntent.name "B"
          ((clearSlot eventFixtureInvalidB "B").currentIntent.slots)
          (some { contentType := ContentType.plainText, content := ev.promptMessage })
      ∧ (clearSlot eventFixtureInvalidB "B").currentIntent.slots "B" = none
      ∧ ((mkDefaultDialogEventHandler cfgFixture).handle
          eventFixtureInvalidB).2.lexEvent.currentIntent.slots "B" = none :=
  claim_C2_rejected_slot_cleared cfgFixture eventFixtureInvalidB ["A"] "B" []
    rfl (by decide) (by decide) rfl

/-- Witness for C3 at a concrete turn whose summary shows slot C confirmed while
the current value of C is absent. -/
theorem claim_C3_witness :
    ((StandardSlotEvaluators.NotNullSlotEvaluator "C" "prompt").evaluate
      eventFixtureRecent).valid = SlotValidationAssessment.VALID_RECENT_SLOT :=
  claim_C3_recent_value_short_circuits
    (StandardSlotEvaluators.NotNullSlotEvaluator "C" "prompt") "C" eventFixtureRecent
    summaryFixture "confirmed-val" (Or.inl ⟨"prompt", rfl⟩) rfl rfl

/-- Witness for C4 at a concrete dialog event whose dialog handler fails. -/
theorem claim_C4_witness :
    route eventFixtureInvalidB failingHandlerFixture =
      LexResultFactory.dialogActionClose FulfillmentState.Failed
        (some { contentType := ContentType.plainText, content := "Unxpected error occurred" })
        eventFixtureInvalidB.sessionAttributes none
    ∧ (route eventFixtureInvalidB failingHandlerFixture).sessionAttributes =
        eventFixtureInvalidB.sessionAttributes :=
  claim_C4_route_failure_closes eventFixtureInvalidB failingHandlerFixture
    (Or.inl ⟨rfl, "boom", rfl⟩)

/-- Witness for C9 at a concrete configuration and a turn where both slots hold
acceptable values. -/
theorem claim_C9_witness :
    (mkDefaultDialogEventHandler cfgFixture).handle eventFixtureAllValid =
      (LexResultFactory.dialogActionDelegate (some eventFixtureAllValid.currentIntent.slots)
        eventFixtureAllValid.sessionAttributes none,
       { lexEvent := eventFixtureAllValid,
         evalMap := (mkDefaultDialogEventHandler cfgFixture).slotEvaluatorMap,
         invoked := (mkDefaultDialogEventHandler cfgFixture).slotNameArray })
    ∧ ((mkDefaultDialogEventHandler cfgFixture).handle eventFixtureAllValid).1.dialogAction =
        LexDialogAction.delegate (some eventFixtureAllValid.currentIntent.slots)
    ∧ ((mkDefaultDialogEventHandler cfgFixture).handle eventFixtureAllValid).2.lexEvent =
        eventFixtureAllValid :=
  claim_C9_all_valid_delegates_unchanged cfgFixture eventFixtureAllValid
    (by decide) rfl rfl rfl rfl
